import Mathlib

set_option autoImplicit false

/-
  Verification development for the GenStudio browser-automation / capture
  pipeline (src/genstudio/chrome_devtools.py and src/genstudio/screenshots.py).

  The Python code is shallowly embedded: every operation is a pure Lean
  function from an explicit context/state to a pair of
  (list of observable effects, outcome).  Outcomes are `ok` (normal return),
  `err` (a raised Python exception) or `blocked` (an unbounded blocking
  receive on an exhausted message stream).  The incoming WebSocket message
  stream of a connection is modelled as the list of messages the browser
  will deliver, in order; `recv` pops the head and an empty list means the
  call blocks forever.
-/

namespace GenStudio

mutual
/-- Model of the JSON values exchanged on the DevTools wire and of Python
dictionaries: objects are association lists, which matches `dict.get` /
`in` / `[]` access in the source. -/
inductive JVal where
  | null
  | jbool (b : Bool)
  | jnum (n : Nat)
  | jstr (s : String)
  | jobj (fields : JFields)
deriving Repr, DecidableEq

/-- Field list of a JSON object (Python dict): ordered key/value bindings. -/
inductive JFields where
  | nil
  | cons (k : String) (v : JVal) (rest : JFields)
deriving Repr, DecidableEq
end

/-- Build an object field list from an association list. -/
def JFields.ofList : List (String × JVal) → JFields
  | [] => .nil
  | (k, v) :: rest => .cons k v (JFields.ofList rest)

/-- Build a JSON object from an association list. -/
def JVal.obj (kvs : List (String × JVal)) : JVal :=
  .jobj (JFields.ofList kvs)

/-- Python `d.get(k)` on the field list: first binding of `k`. -/
def JFields.get? : JFields → String → Option JVal
  | .nil, _ => none
  | .cons k v rest, key => if k == key then some v else rest.get? key

/-- Python `d.get(k)`: first binding of `k`, `none` when absent or when the
value is not an object. -/
def JVal.get? : JVal → String → Option JVal
  | .jobj fields, k => fields.get? k
  | _, _ => none

/-- Python `d.get(k, default)`. -/
def JVal.getD (v : JVal) (k : String) (d : JVal) : JVal :=
  (v.get? k).getD d

/-- The exceptions the capture layer can raise.  The Python source raises
`RuntimeError` / `ValueError` / `FileNotFoundError` / `KeyError`; the
constructors name the spec taxonomy entry each site corresponds to. -/
inductive Err where
  | notConnected
  | protocolError (payload : JVal)
  | connectionLost
  | startupTimeout
  | notFound
  | captureError
  | keyError (k : String)
  | validationError (msg : String)
  | pageError (msg : String)
deriving Repr, DecidableEq

/-- Outcome of running one operation: normal return, raised exception, or
an unbounded block (a `recv` on a stream that never delivers). -/
inductive Out (α : Type) where
  | ok (a : α)
  | err (e : Err)
  | blocked
deriving Repr, DecidableEq

/-- Observable effects of the capture layer on the outside world (wire
writes, process control, filesystem, server thread lifecycle, encoder
pipe).  Fresh OS-allocated resources (temp directories, ephemeral server
ports, process handles) are identified by the `Nat` supplied to the call
that creates them. -/
inductive Effect where
  | sendMsg (msg : JVal)
  | closeWS
  | spawnChrome (path : String)
  | connectWS (wsUrl : String)
  | termProc (p : Nat)
  | waitProc (p : Nat)
  | killProc (p : Nat)
  | createTempDir (d : Nat)
  | writeIndexHtml (d : Nat) (html : String)
  | writeAuxFile (d : Nat) (name : String)
  | createServer (s : Nat) (d : Nat)
  | startServerThread (s : Nat)
  | shutdownServer (s : Nat)
  | joinServerThread (s : Nat)
  | closeServer (s : Nat)
  | removeTempDir (d : Nat)
  | mkdirOutput (dir : String)
  | mkdirParent (path : String)
  | updateState (i : Nat)
  | captureImage (i : Nat)
  | writeImageFile (path : String)
  | spawnEncoder (gif : Bool)
  | writeFrame (i : Nat)
  | closeEncoderStdin
  | waitEncoder
  | terminateEncoder
deriving Repr, DecidableEq

/-- A traced computation: the effects it performed and its outcome. -/
structure M (α : Type) where
  trace : List Effect
  out : Out α
deriving Repr, DecidableEq

def M.pure {α : Type} (a : α) : M α := ⟨[], .ok a⟩

def M.fail {α : Type} (e : Err) : M α := ⟨[], .err e⟩

def M.stuck {α : Type} : M α := ⟨[], .blocked⟩

def M.emit (e : Effect) : M Unit := ⟨[e], .ok ()⟩

/-- Sequencing: effects accumulate; a raised exception or a block
short-circuits. -/
def M.bind {α β : Type} (x : M α) (f : α → M β) : M β :=
  match x with
  | ⟨tr, .ok a⟩ => ⟨tr ++ (f a).trace, (f a).out⟩
  | ⟨tr, .err e⟩ => ⟨tr, .err e⟩
  | ⟨tr, .blocked⟩ => ⟨tr, .blocked⟩

/-- Python `with` block: the exit handler's effects run on normal return
and on a raised exception, but not when the body blocks forever. -/
def M.withExit {α : Type} (body : M α) (exitFx : List Effect) : M α :=
  match body.out with
  | .blocked => body
  | _ => ⟨body.trace ++ exitFx, body.out⟩

/-- Python `try: body / except: run cleanup, re-raise`, where the source's
success path appends `okFx` and the except path appends `errFx`. -/
def M.tryCleanup {α : Type} (body : M α) (okFx errFx : List Effect) : M α :=
  match body.out with
  | .ok a => ⟨body.trace ++ okFx, .ok a⟩
  | .err e => ⟨body.trace ++ errFx, .err e⟩
  | .blocked => body

theorem M.bind_ok {α β : Type} (tr : List Effect) (a : α) (f : α → M β) :
    M.bind ⟨tr, .ok a⟩ f = ⟨tr ++ (f a).trace, (f a).out⟩ := rfl

theorem M.bind_err {α β : Type} (tr : List Effect) (e : Err) (f : α → M β) :
    M.bind ⟨tr, .err e⟩ f = ⟨tr, .err e⟩ := rfl

theorem M.bind_blocked {α β : Type} (tr : List Effect) (f : α → M β) :
    M.bind (⟨tr, .blocked⟩ : M α) f = ⟨tr, .blocked⟩ := rfl

theorem M.bind_out_ok_iff {α β : Type} (x : M α) (f : α → M β) (b : β) :
    (M.bind x f).out = .ok b ↔ ∃ a, x.out = .ok a ∧ (f a).out = .ok b := by
  obtain ⟨tr, o⟩ := x
  cases o with
  | ok a =>
      simp only [M.bind]
      constructor
      · intro h; exact ⟨a, rfl, h⟩
      · rintro ⟨a', ha, hb⟩
        cases ha; exact hb
  | err e =>
      simp only [M.bind]
      constructor
      · intro h; cases h
      · rintro ⟨a', ha, _⟩; cases ha
  | blocked =>
      simp only [M.bind]
      constructor
      · intro h; cases h
      · rintro ⟨a', ha, _⟩; cases ha

theorem M.bind_trace_of_ok {α β : Type} (x : M α) (f : α → M β) (a : α)
    (h : x.out = .ok a) :
    (M.bind x f).trace = x.trace ++ (f a).trace := by
  obtain ⟨tr, o⟩ := x
  cases o with
  | ok a' => cases h; rfl
  | err e => cases h
  | blocked => cases h

/-- The module-level `DEBUG` flag of `chrome_devtools.py`. -/
def DEBUG : Bool := false

/-- State of `ChromeContext` (chrome_devtools.py).  `ws` is the open
connection modelled as the list of messages the browser will deliver on it,
in order (`none` = not connected).  `chrome_process` is the process handle.
Python's falsy `None` defaults for `width`/`height` are modelled with
`Option`; `scale` is kept abstract as a `Nat` (its numeric value is never
load-bearing for the verified properties). -/
structure ChromeContext where
  port : Nat
  width : Nat
  height : Option Nat
  scale : Nat
  chrome_process : Option Nat
  ws : Option (List JVal)
  cmd_id : Nat
deriving Repr, DecidableEq

namespace ChromeContext

/-- The receive loop of `_send_command`: read messages off the connection,
dropping each one, until one arrives with `"id" in response and
response["id"] == cmd_id`; returns that message and the not-yet-received
suffix.  An exhausted stream blocks forever. -/
def recvUntilId (cid : Nat) : List JVal → Out (JVal × List JVal)
  | [] => .blocked
  | m :: rest =>
    if m.get? "id" = some (.jnum cid) then .ok (m, rest)
    else recvUntilId cid rest

/-- `ChromeContext._send_command`: raise if not connected, increment
`cmd_id`, send the framed `{id, method, params}` message, then block until
the id-matched response; raise `RuntimeError` (ProtocolError) if it carries
an `error` field, else return its `result` field (default `{}`). -/
def _send_command (ctx : ChromeContext) (method : String) (params : JVal) :
    M (JVal × ChromeContext) :=
  match ctx.ws with
  | none => M.fail .notConnected
  | some pending =>
    let cid := ctx.cmd_id + 1
    let msg : JVal := .obj [("id", .jnum cid), ("method", .jstr method), ("params", params)]
    M.bind (M.emit (.sendMsg msg)) fun _ =>
      match recvUntilId cid pending with
      | .blocked => M.stuck
      | .err e => M.fail e
      | .ok (m, rest) =>
        match m.get? "error" with
        | some e => M.fail (.protocolError e)
        | none => M.pure ((m.get? "result").getD (.jobj .nil),
            { ctx with cmd_id := cid, ws := some rest })

/-- `ChromeContext.set_size`: update width/height/scale (Python
`width or self.width`, `height or self.height or self.width`), then issue
`Browser.getWindowForTarget` (indexing its result with `["windowId"]`,
a `KeyError` when absent), `Browser.setWindowBounds` and
`Page.setDeviceMetricsOverride`. -/
def set_size (ctx : ChromeContext) (width height scale : Option Nat) :
    M ChromeContext :=
  let w := width.getD ctx.width
  let h := (height.orElse (fun _ => ctx.height)).getD w
  let sc := scale.getD ctx.scale
  let ctx1 := { ctx with width := w, height := some h, scale := sc }
  M.bind (ctx1._send_command "Browser.getWindowForTarget" (.obj [])) fun r1 =>
    match r1.1.get? "windowId" with
    | none => M.fail (.keyError "windowId")
    | some wid =>
      M.bind (r1.2._send_command "Browser.setWindowBounds"
          (.obj [("windowId", wid),
                 ("bounds", .obj [("width", .jnum w), ("height", .jnum h)])])) fun r2 =>
        M.bind (r2.2._send_command "Page.setDeviceMetricsOverride"
            (.obj [("width", .jnum w), ("height", .jnum h),
                   ("deviceScaleFactor", .jnum sc), ("mobile", .jbool false)])) fun r3 =>
          M.pure r3.2

/-- `ChromeContext.stop`: close the connection if open, then (as `DEBUG` is
false) terminate the process if owned, waiting up to five seconds and
killing on `TimeoutExpired` (`waitTimesOut` says which branch the OS takes).
Total: it always returns normally. -/
def stop (ctx : ChromeContext) (waitTimesOut : Bool) : M ChromeContext :=
  let s1 : List Effect × ChromeContext :=
    match ctx.ws with
    | some _ => ([Effect.closeWS], { ctx with ws := none })
    | none => ([], ctx)
  match s1.2.chrome_process, DEBUG with
  | some p, false =>
    ⟨s1.1 ++ (if waitTimesOut then [Effect.termProc p, Effect.waitProc p, Effect.killProc p]
              else [Effect.termProc p, Effect.waitProc p]),
     .ok { s1.2 with chrome_process := none }⟩
  | _, _ => ⟨s1.1, .ok s1.2⟩

/-- One entry of the `/json` discovery response. -/
structure Target where
  type : String
  url : String
  webSocketDebuggerUrl : String
deriving Repr, DecidableEq

/-- The generator expression in `start`: the first target with
`type == "page"` and `url == "data:,"`. -/
def findPageTarget (targets : List Target) : Option Target :=
  targets.find? (fun t => t.type == "page" && t.url == "data:,")

/-- The discovery-polling loop of `start`.  Each list entry is one loop
iteration: the clock value `time.time()` reads at its timeout check and the
outcome of the `urlopen`/parse attempt (`none` = the attempt raised, which
the source swallows).  A matching page target breaks out; otherwise the
iteration raises `RuntimeError` (StartupTimeout) once more than 10 seconds
have elapsed.  An endless supply of iterations is modelled by the finite
prefix examined. -/
def pollLoop (start_time : Nat) : List (Nat × Option (List Target)) → Out Target
  | [] => .blocked
  | (now, attempt) :: rest =>
    match attempt.bind findPageTarget with
    | some tgt => .ok tgt
    | none =>
      if start_time + 10 < now then .err .startupTimeout
      else pollLoop start_time rest

/-- `ChromeContext.start`: if a process is already owned, only re-apply the
viewport size and return.  Otherwise locate the browser (`none` =
`FileNotFoundError`), spawn it (owning the handle before polling), poll the
discovery endpoint, connect to the matched target's socket (whose incoming
stream is `wsInit`), and enable the `Page` and `Runtime` domains. -/
def start (ctx : ChromeContext) (chrome_path : Option String)
    (start_time : Nat) (polls : List (Nat × Option (List Target)))
    (proc : Nat) (wsInit : List JVal) : M ChromeContext :=
  match ctx.chrome_process with
  | some _ => ctx.set_size none none none
  | none =>
    match chrome_path with
    | none => M.fail .notFound
    | some path =>
      M.bind (M.emit (.spawnChrome path)) fun _ =>
        let ctx0 := { ctx with chrome_process := some proc }
        match pollLoop start_time polls with
        | .blocked => M.stuck
        | .err e => M.fail e
        | .ok tgt =>
          M.bind (M.emit (.connectWS tgt.webSocketDebuggerUrl)) fun _ =>
            let ctx1 := { ctx0 with ws := some wsInit }
            M.bind (ctx1._send_command "Page.enable" (.obj [])) fun r1 =>
              M.bind (r1.2._send_command "Runtime.enable" (.obj [])) fun r2 =>
                M.pure r2.2

/-- `ChromeContext.evaluate`: send `Runtime.evaluate` and return
`result.get("result", {}).get("value")` — `none` models Python `None` when
the nested `value` field is absent.  Note that no field of the reply other
than `result.result.value` is inspected. -/
def evaluate (ctx : ChromeContext) (expression : String)
    (return_by_value await_promise : Bool) : M (Option JVal × ChromeContext) :=
  M.bind (ctx._send_command "Runtime.evaluate"
      (.obj [("expression", .jstr expression),
             ("returnByValue", .jbool return_by_value),
             ("awaitPromise", .jbool await_promise)])) fun r =>
    M.pure (((r.1.getD "result" (.jobj .nil)).get? "value"), r.2)

/-- The wait loop at the end of `set_content`: read messages off the
connection, dropping each one, until one with
`response.get("method") == "Page.loadEventFired"` arrives; returns the
not-yet-received suffix.  An exhausted stream blocks forever. -/
def waitForLoadEvent : List JVal → Out (List JVal)
  | [] => .blocked
  | m :: rest =>
    if m.get? "method" = some (.jstr "Page.loadEventFired") then .ok rest
    else waitForLoadEvent rest

/-- The `while True` load wait of `set_content`, including its
`if not self.ws: raise RuntimeError("WebSocket connection lost")` guard. -/
def wait_for_load (ctx : ChromeContext) : M ChromeContext :=
  match ctx.ws with
  | none => M.fail .connectionLost
  | some pending =>
    match waitForLoadEvent pending with
    | .blocked => M.stuck
    | .err e => M.fail e
    | .ok rest => M.pure { ctx with ws := some rest }

/-- The writes of the optional auxiliary files into the temp directory. -/
def writeAuxFiles (d : Nat) : List (String × String) → M Unit
  | [] => M.pure ()
  | (name, _) :: rest =>
    M.bind (M.emit (.writeAuxFile d name)) fun _ => writeAuxFiles d rest

/-- The URL `set_content` navigates to; the ephemeral port is identified
with the fresh server id `srv`. -/
def servedUrl (srv : Nat) : String :=
  "http://localhost:" ++ toString srv ++ "/index.html"

/-- `ChromeContext.set_content`: re-apply the viewport size, then inside a
`with TemporaryDirectory` block (fresh id `d`) write `index.html` and the
auxiliary files, create a `TCPServer` on an ephemeral port (fresh id `srv`)
inside a `with` block, start its background thread, navigate to the served
URL, block until `Page.loadEventFired`, then shut the server down and join
its thread.  The `with` exits close the server and remove the temporary
directory on both the normal and the raising path (not on an unbounded
block, which never unwinds). -/
def set_content (ctx : ChromeContext) (html : String)
    (files : List (String × String)) (d srv : Nat) : M ChromeContext :=
  M.bind (ctx.set_size none none none) fun ctx1 =>
    M.bind (M.emit (.createTempDir d)) fun _ =>
      M.withExit
        (M.bind (M.emit (.writeIndexHtml d html)) fun _ =>
          M.bind (writeAuxFiles d files) fun _ =>
            M.bind (M.emit (.createServer srv d)) fun _ =>
              M.withExit
                (M.bind (M.emit (.startServerThread srv)) fun _ =>
                  M.bind (ctx1._send_command "Page.navigate"
                      (.obj [("url", .jstr (servedUrl srv))])) fun r =>
                    M.bind r.2.wait_for_load fun ctx2 =>
                      M.bind (M.emit (.shutdownServer srv)) fun _ =>
                        M.bind (M.emit (.joinServerThread srv)) fun _ =>
                          M.pure ctx2)
                [.closeServer srv])
        [.removeTempDir d]

end ChromeContext

/-- An opaque state update (spec §3: "an opaque, externally-defined value
... the core does not interpret its contents"). -/
abbrev StateUpdate := JVal

/-- An opaque captured bitmap byte buffer. -/
abbrev Bytes := List Nat

namespace StudioContext

/- `StudioContext.update_state` and `StudioContext.capture_image` reach the
page through `evaluate` via serialization helpers (`genstudio.widget`,
`genstudio.html`) whose sources are not part of the capture layer; the
claims about the capture driver treat them as the spec does.

Modelled from the spec: `captureOne`'s two halves — applying one opaque
state mutation and capturing one opaque bitmap — are abstract fallible
operations `upd` and `cap` on an opaque page environment `E`; a raised
exception is an `Except.error`.  The driver loops below are translated
from the source of `screenshots.py`. -/

/-- `StudioContext.capture_image_sequence`, with the enumeration index
threaded through: `for i, state_update in enumerate(state_updates):
self.update_state([state_update]); bytes_list.append(self.capture_image())`.
Any exception from an update or capture propagates, aborting the loop. -/
def capture_image_sequence_from {E : Type} (upd : E → StateUpdate → Except Err E)
    (cap : E → Except Err (Bytes × E)) (i : Nat) :
    E → List StateUpdate → M (List Bytes × E)
  | e, [] => M.pure ([], e)
  | e, u :: rest =>
    M.bind (M.emit (.updateState i)) fun _ =>
      match upd e u with
      | .error er => M.fail er
      | .ok e1 =>
        M.bind (M.emit (.captureImage i)) fun _ =>
          match cap e1 with
          | .error er => M.fail er
          | .ok (b, e2) =>
            M.bind (capture_image_sequence_from upd cap (i + 1) e2 rest) fun p =>
              M.pure (b :: p.1, p.2)

/-- `StudioContext.capture_image_sequence` starting at index 0. -/
def capture_image_sequence {E : Type} (upd : E → StateUpdate → Except Err E)
    (cap : E → Except Err (Bytes × E)) (e : E) (us : List StateUpdate) :
    M (List Bytes × E) :=
  capture_image_sequence_from upd cap 0 e us

/-- The auto-generated filenames `f"{filename_base}_{i}.png"`. -/
def autoFilenames (base : String) (n : Nat) : List String :=
  (List.range n).map (fun i => base ++ "_" ++ toString i ++ ".png")

/-- The write-back loop of `save_image_sequence`: write each captured
buffer to its output path, collecting the saved paths. -/
def writeImages : List (Bytes × String) → M (List String)
  | [] => M.pure []
  | (_, p) :: rest =>
    M.bind (M.emit (.writeImageFile p)) fun _ =>
      M.bind (writeImages rest) fun ps => M.pure (p :: ps)

/-- The `ValueError` message of the filename-count check. -/
def mismatchMsg (nNames nUpdates : Nat) : String :=
  "Number of filenames (" ++ toString nNames ++
    ") must match number of state updates (" ++ toString nUpdates ++ ")"

/-- `StudioContext.save_image_sequence`: `output_dir.mkdir(exist_ok=True,
parents=True)` first; then `if filenames:` — a Python truthiness test, so
an empty list falls through to auto-generation — check the count and raise
`ValueError` on mismatch; then capture the whole sequence and write each
image under `output_dir`. -/
def save_image_sequence {E : Type} (upd : E → StateUpdate → Except Err E)
    (cap : E → Except Err (Bytes × E)) (e : E) (state_updates : List StateUpdate)
    (output_dir : String) (filenames : Option (List String))
    (filename_base : String) : M (List String × E) :=
  M.bind (M.emit (.mkdirOutput output_dir)) fun _ =>
    let go : List String → M (List String × E) := fun names =>
      M.bind (capture_image_sequence upd cap e state_updates) fun p =>
        M.bind (writeImages (p.1.zip (names.map (fun n => output_dir ++ "/" ++ n)))) fun saved =>
          M.pure (saved, p.2)
    match filenames with
    | some (n :: ns) =>
      if (n :: ns).length = state_updates.length then go (n :: ns)
      else M.fail (.validationError (mismatchMsg (n :: ns).length state_updates.length))
    | _ => go (autoFilenames filename_base state_updates.length)

/-- The frame loop inside `capture_video`'s `try` block: apply the update,
capture, and write the PNG bytes to the encoder's stdin pipe (`wr` is the
outcome of each blocking pipe write; a broken pipe raises). -/
def video_loop {E : Type} (upd : E → StateUpdate → Except Err E)
    (cap : E → Except Err (Bytes × E)) (wr : Nat → Bytes → Except Err Unit)
    (i : Nat) : E → List StateUpdate → M E
  | e, [] => M.pure e
  | e, u :: rest =>
    M.bind (M.emit (.updateState i)) fun _ =>
      match upd e u with
      | .error er => M.fail er
      | .ok e1 =>
        M.bind (M.emit (.captureImage i)) fun _ =>
          match cap e1 with
          | .error er => M.fail er
          | .ok (b, e2) =>
            M.bind (M.emit (.writeFrame i)) fun _ =>
              match wr i b with
              | .error er => M.fail er
              | .ok _ => video_loop upd cap wr (i + 1) e2 rest

/-- `StudioContext.capture_video`: make the output's parent directory,
choose the ffmpeg command from the lowercased extension (GIF palette path
vs MP4 libx264 path), spawn the encoder with stdin as a pipe, then run the
frame loop inside `try`; on the success path close stdin and wait for the
encoder, on any exception close stdin and terminate it, re-raising. -/
def capture_video {E : Type} (upd : E → StateUpdate → Except Err E)
    (cap : E → Except Err (Bytes × E)) (wr : Nat → Bytes → Except Err Unit)
    (e : E) (state_updates : List StateUpdate) (filename : String) :
    M (String × E) :=
  M.bind (M.emit (.mkdirParent filename)) fun _ =>
    M.bind (M.emit (.spawnEncoder (filename.toLower.endsWith ".gif"))) fun _ =>
      M.tryCleanup
        (M.bind (video_loop upd cap wr 0 e state_updates) fun e2 =>
          M.pure (filename, e2))
        [.closeEncoderStdin, .waitEncoder]
        [.closeEncoderStdin, .terminateEncoder]

end StudioContext

/-- Specification relation for `captureSequence`, written from the spec
sentence: the i-th output frame is the capture taken immediately after
applying the i-th update, updates applied in input order, none skipped or
reordered. -/
inductive CaptureSeqSpec {E : Type} (upd : E → StateUpdate → Except Err E)
    (cap : E → Except Err (Bytes × E)) : E → List StateUpdate → List Bytes → E → Prop where
  | nil (e : E) : CaptureSeqSpec upd cap e [] [] e
  | cons {e e1 e2 e3 : E} {u : StateUpdate} {us : List StateUpdate} {b : Bytes}
      {bs : List Bytes} (hu : upd e u = .ok e1) (hc : cap e1 = .ok (b, e2))
      (hrest : CaptureSeqSpec upd cap e2 us bs e3) :
      CaptureSeqSpec upd cap e (u :: us) (b :: bs) e3

/-- Specification relation for the failure case of `captureSequence`: the
raised error is the one produced by the first failing update or capture,
reached by running all earlier steps in order. -/
inductive CaptureSeqAborts {E : Type} (upd : E → StateUpdate → Except Err E)
    (cap : E → Except Err (Bytes × E)) : E → List StateUpdate → Err → Prop where
  | updFail {e : E} {u : StateUpdate} {us : List StateUpdate} {er : Err}
      (hu : upd e u = .error er) : CaptureSeqAborts upd cap e (u :: us) er
  | capFail {e e1 : E} {u : StateUpdate} {us : List StateUpdate} {er : Err}
      (hu : upd e u = .ok e1) (hc : cap e1 = .error er) :
      CaptureSeqAborts upd cap e (u :: us) er
  | later {e e1 e2 : E} {u : StateUpdate} {us : List StateUpdate} {b : Bytes}
      {er : Err} (hu : upd e u = .ok e1) (hc : cap e1 = .ok (b, e2))
      (hrest : CaptureSeqAborts upd cap e2 us er) :
      CaptureSeqAborts upd cap e (u :: us) er

theorem cis_from_nil_out {E : Type} (upd : E → StateUpdate → Except Err E)
    (cap : E → Except Err (Bytes × E)) (i : Nat) (e : E) :
    (StudioContext.capture_image_sequence_from upd cap i e []).out = .ok ([], e) := rfl

/-- One-step unfolding of the capture loop's outcome. -/
theorem cis_from_cons_out {E : Type} (upd : E → StateUpdate → Except Err E)
    (cap : E → Except Err (Bytes × E)) (i : Nat) (e : E) (u : StateUpdate)
    (rest : List StateUpdate) :
    (StudioContext.capture_image_sequence_from upd cap i e (u :: rest)).out =
      (match upd e u with
       | .error er => Out.err er
       | .ok e1 =>
         match cap e1 with
         | .error er => Out.err er
         | .ok (b, e2) =>
           match (StudioContext.capture_image_sequence_from upd cap (i + 1) e2 rest).out with
           | .ok p => Out.ok (b :: p.1, p.2)
           | .err er => Out.err er
           | .blocked => Out.blocked) := by
  cases hu : upd e u with
  | error er =>
    simp [StudioContext.capture_image_sequence_from, M.bind, M.emit, M.fail, hu]
  | ok e1 =>
    cases hc : cap e1 with
    | error er =>
      simp [StudioContext.capture_image_sequence_from, M.bind, M.emit, M.fail, hu, hc]
    | ok p =>
      obtain ⟨b, e2⟩ := p
      rcases hg : StudioContext.capture_image_sequence_from upd cap (i + 1) e2 rest with ⟨tr, o⟩
      cases o <;>
        simp [StudioContext.capture_image_sequence_from, M.bind, M.emit, M.pure, hu, hc, hg]

theorem capture_image_sequence_from_correct {E : Type}
    (upd : E → StateUpdate → Except Err E) (cap : E → Except Err (Bytes × E)) :
    ∀ (us : List StateUpdate) (i : Nat) (e : E),
      (∀ bs e2, (StudioContext.capture_image_sequence_from upd cap i e us).out = .ok (bs, e2) →
          CaptureSeqSpec upd cap e us bs e2 ∧ bs.length = us.length)
      ∧ (∀ er, (StudioContext.capture_image_sequence_from upd cap i e us).out = .err er →
          CaptureSeqAborts upd cap e us er)
      ∧ (StudioContext.capture_image_sequence_from upd cap i e us).out ≠ .blocked := by
  intro us
  induction us with
  | nil =>
    intro i e
    refine ⟨?_, ?_, ?_⟩
    · intro bs e2 h
      rw [cis_from_nil_out] at h
      cases h
      exact ⟨CaptureSeqSpec.nil e, rfl⟩
    · intro er h
      rw [cis_from_nil_out] at h
      cases h
    · intro h
      rw [cis_from_nil_out] at h
      cases h
  | cons u rest ih =>
    intro i e
    refine ⟨?_, ?_, ?_⟩
    · intro bs e2 h
      rw [cis_from_cons_out] at h
      cases hu : upd e u with
      | error er => rw [hu] at h; simp only [] at h; cases h
      | ok e1 =>
        rw [hu] at h
        simp only [] at h
        cases hc : cap e1 with
        | error er => rw [hc] at h; simp only [] at h; cases h
        | ok p =>
          obtain ⟨b, e2'⟩ := p
          rw [hc] at h
          simp only [] at h
          rcases hrec : (StudioContext.capture_image_sequence_from upd cap (i + 1) e2' rest).out with
            a | er | _ <;> rw [hrec] at h <;> simp only [] at h
          · obtain ⟨bs', e3⟩ := a
            cases h
            obtain ⟨hspec, hlen⟩ := (ih (i + 1) e2').1 bs' e3 hrec
            exact ⟨CaptureSeqSpec.cons hu hc hspec, by simp [hlen]⟩
          · cases h
          · cases h
    · intro er h
      rw [cis_from_cons_out] at h
      cases hu : upd e u with
      | error er' =>
        rw [hu] at h
        simp only [] at h
        cases h
        exact CaptureSeqAborts.updFail hu
      | ok e1 =>
        rw [hu] at h
        simp only [] at h
        cases hc : cap e1 with
        | error er' =>
          rw [hc] at h
          simp only [] at h
          cases h
          exact CaptureSeqAborts.capFail hu hc
        | ok p =>
          obtain ⟨b, e2'⟩ := p
          rw [hc] at h
          simp only [] at h
          rcases hrec : (StudioContext.capture_image_sequence_from upd cap (i + 1) e2' rest).out with
            a | er' | _ <;> rw [hrec] at h <;> simp only [] at h
          · cases h
          · cases h
            exact CaptureSeqAborts.later hu hc ((ih (i + 1) e2').2.1 _ hrec)
          · cases h
    · intro h
      rw [cis_from_cons_out] at h
      cases hu : upd e u with
      | error er' => rw [hu] at h; simp only [] at h; cases h
      | ok e1 =>
        rw [hu] at h
        simp only [] at h
        cases hc : cap e1 with
        | error er' => rw [hc] at h; simp only [] at h; cases h
        | ok p =>
          obtain ⟨b, e2'⟩ := p
          rw [hc] at h
          simp only [] at h
          rcases hrec : (StudioContext.capture_image_sequence_from upd cap (i + 1) e2' rest).out with
            a | er' | _ <;> rw [hrec] at h <;> simp only [] at h
          · cases h
          · cases h
          · exact (ih (i + 1) e2').2.2 hrec

/-- C2: for every list of state updates on which no update or capture
fails, `capture_image_sequence` returns a list whose length equals the
input length, whose i-th frame is the capture taken immediately after
applying the i-th update, with updates applied in input order and none
skipped or reordered (the `CaptureSeqSpec` relation); on the first failure
the whole call aborts with that error (the `CaptureSeqAborts` relation)
rather than returning a partial, shorter list, and it never returns any
other way. -/
theorem capture_image_sequence_correct {E : Type}
    (upd : E → StateUpdate → Except Err E) (cap : E → Except Err (Bytes × E))
    (e : E) (us : List StateUpdate) :
    (∀ bs e2, (StudioContext.capture_image_sequence upd cap e us).out = .ok (bs, e2) →
        CaptureSeqSpec upd cap e us bs e2 ∧ bs.length = us.length)
    ∧ (∀ er, (StudioContext.capture_image_sequence upd cap e us).out = .err er →
        CaptureSeqAborts upd cap e us er)
    ∧ (StudioContext.capture_image_sequence upd cap e us).out ≠ .blocked :=
  capture_image_sequence_from_correct upd cap us 0 e

/-- A deterministic page environment for concrete runs: the environment is
a step counter, every update succeeds, every capture returns a one-byte
frame recording the counter. -/
def c2upd : Nat → StateUpdate → Except Err Nat := fun e _ => .ok (e + 1)

/-- Capture operation of the concrete page environment. -/
def c2cap : Nat → Except Err (Bytes × Nat) := fun e => .ok ([e], e)

/-- Witness for C2 at a concrete two-update run. -/
theorem capture_image_sequence_correct_witness :
    CaptureSeqSpec c2upd c2cap 0 [JVal.null, JVal.null] [[1], [2]] 2 ∧
      ([[1], [2]] : List Bytes).length = [JVal.null, JVal.null].length :=
  (capture_image_sequence_correct c2upd c2cap 0 [JVal.null, JVal.null]).1 [[1], [2]] 2 rfl

/-- If no message of `pre` carries the awaited id and `m` does, the receive
loop drops all of `pre` and returns `m` with the unread suffix. -/
theorem recvUntilId_append (cid : Nat) (pre : List JVal) (m : JVal) (rest : List JVal)
    (hpre : ∀ x ∈ pre, x.get? "id" ≠ some (.jnum cid))
    (hm : m.get? "id" = some (.jnum cid)) :
    ChromeContext.recvUntilId cid (pre ++ m :: rest) = .ok (m, rest) := by
  induction pre with
  | nil => simp [ChromeContext.recvUntilId, hm]
  | cons x xs ih =>
    have hx := hpre x (by simp)
    simp only [List.cons_append, ChromeContext.recvUntilId]
    rw [if_neg hx]
    exact ih (fun y hy => hpre y (by simp [hy]))

/-- C5: on a connected session whose stream delivers (after any
non-matching messages) a message carrying the freshly assigned id
`cmd_id + 1`, `_send_command` writes exactly one framed
`{id, method, params}` message with that id, blocks until the id-matched
message, and returns its `result` field with the id counter advanced; if
the id-matched message carries an `error` field it instead raises
ProtocolError carrying the server-reported payload. -/
theorem send_command_spec (ctx : ChromeContext) (method : String) (params : JVal)
    (pre : List JVal) (m : JVal) (rest : List JVal)
    (hws : ctx.ws = some (pre ++ m :: rest))
    (hpre : ∀ x ∈ pre, x.get? "id" ≠ some (.jnum (ctx.cmd_id + 1)))
    (hm : m.get? "id" = some (.jnum (ctx.cmd_id + 1))) :
    (ctx._send_command method params).trace =
        [.sendMsg (.obj [("id", .jnum (ctx.cmd_id + 1)), ("method", .jstr method),
                         ("params", params)])]
    ∧ (m.get? "error" = none →
        (ctx._send_command method params).out =
          .ok ((m.get? "result").getD (.jobj .nil),
               { ctx with cmd_id := ctx.cmd_id + 1, ws := some rest }))
    ∧ (∀ e, m.get? "error" = some e →
        (ctx._send_command method params).out = .err (.protocolError e)) := by
  have hr := recvUntilId_append (ctx.cmd_id + 1) pre m rest hpre hm
  refine ⟨?_, ?_, ?_⟩
  · cases he : m.get? "error" <;>
      simp [ChromeContext._send_command, hws, hr, he, M.bind, M.emit, M.fail, M.pure]
  · intro he
    simp [ChromeContext._send_command, hws, hr, he, M.bind, M.emit, M.fail, M.pure]
  · intro e he
    simp [ChromeContext._send_command, hws, hr, he, M.bind, M.emit, M.fail, M.pure]

/-- A response carrying the awaited id 1 and a `result` payload. -/
def c5resp : JVal := .obj [("id", .jnum 1), ("result", .obj [("frameId", .jstr "F")])]

/-- An unsolicited event notification (no id field). -/
def c5ev : JVal := .obj [("method", .jstr "Runtime.consoleAPICalled"), ("params", .obj [])]

/-- A connected context whose stream delivers the event, then the response. -/
def c5ctx : ChromeContext :=
  { port := 9222, width := 400, height := none, scale := 1,
    chrome_process := some 1, ws := some [c5ev, c5resp], cmd_id := 0 }

/-- Witness for C5 at a concrete connected context. -/
theorem send_command_spec_witness :
    (c5ctx._send_command "Page.navigate" (.obj [])).out =
      .ok (.obj [("frameId", .jstr "F")], { c5ctx with cmd_id := 1, ws := some [] }) :=
  (send_command_spec c5ctx "Page.navigate" (.obj []) [c5ev] c5resp []
      rfl (by decide) (by decide)).2.1 rfl

/-- The load event notification of the page lifecycle. -/
def c4ev : JVal := .obj [("method", .jstr "Page.loadEventFired"), ("params", .obj [])]

/-- An id-matched response arriving after the load event. -/
def c4resp : JVal := .obj [("id", .jnum 1), ("result", .obj [])]

/-- A connected context whose stream delivers the load event before the
response to the pending command. -/
def c4ctx : ChromeContext :=
  { port := 9222, width := 400, height := none, scale := 1,
    chrome_process := some 1, ws := some [c4ev, c4resp], cmd_id := 0 }

/-- The context after the send: both messages consumed. -/
def c4ctx1 : ChromeContext := { c4ctx with cmd_id := 1, ws := some [] }

/-- C4 counterexample: an unsolicited `Page.loadEventFired` event arriving
while `_send_command` waits for its id-matched response is read and
discarded — the call returns with the stream empty, and the separate
load-event wait that depends on that event then blocks forever.  This
refutes the claim that id-matched waiting never loses a named event. -/
theorem send_command_event_loss_cex :
    c4ev.get? "id" = none
    ∧ c4ev.get? "method" = some (.jstr "Page.loadEventFired")
    ∧ (c4ctx._send_command "Page.navigate" (.obj [])).out = .ok (.jobj .nil, c4ctx1)
    ∧ c4ctx1.wait_for_load = ⟨[], .blocked⟩ := by
  refine ⟨by decide, by decide, by decide, by decide⟩

/-- C4 amended: while `_send_command` waits for its id-matched response, it
reads and discards every earlier message, unsolicited events included; an
event consumed during such a wait is lost — after the call the connection
holds exactly the suffix after the matched response, so a separate wait
that depends on a discarded event can never observe it. -/
theorem send_command_discards_amended (ctx : ChromeContext) (method : String)
    (params : JVal) (pre : List JVal) (m ev : JVal) (rest : List JVal)
    (hws : ctx.ws = some (pre ++ m :: rest))
    (hpre : ∀ x ∈ pre, x.get? "id" ≠ some (.jnum (ctx.cmd_id + 1)))
    (hm : m.get? "id" = some (.jnum (ctx.cmd_id + 1)))
    (hne : m.get? "error" = none)
    (_hev : ev ∈ pre) (hnotin : ev ∉ rest) :
    ∃ v ctx', (ctx._send_command method params).out = .ok (v, ctx')
      ∧ ctx'.ws = some rest
      ∧ ∀ pending, ctx'.ws = some pending → ev ∉ pending := by
  have hr := recvUntilId_append (ctx.cmd_id + 1) pre m rest hpre hm
  refine ⟨(m.get? "result").getD (.jobj .nil),
          { ctx with cmd_id := ctx.cmd_id + 1, ws := some rest }, ?_, rfl, ?_⟩
  · simp [ChromeContext._send_command, hws, hr, hne, M.bind, M.emit, M.pure]
  · intro pending hp
    cases hp
    exact hnotin

/-- Witness for the amended C4 at the concrete event-then-response stream. -/
theorem send_command_discards_amended_witness :
    ∃ v ctx', (c4ctx._send_command "Page.navigate" (.obj [])).out = .ok (v, ctx')
      ∧ ctx'.ws = some []
      ∧ ∀ pending, ctx'.ws = some pending → c4ev ∉ pending :=
  send_command_discards_amended c4ctx "Page.navigate" (.obj []) [c4ev] c4resp c4ev []
    rfl (by decide) (by decide) (by decide) (by decide) (by decide)

/-- Predicate written from the spec (§4.3, §6): the id-matched reply to
`Runtime.evaluate` reports a thrown exception, which the wire format
surfaces as an `exceptionDetails` member of the reply's `result` payload
(distinct from a protocol-level `error` field, which the spec maps to
ProtocolError). -/
def reportsThrown (m : JVal) : Bool :=
  (((m.get? "result").getD (.jobj .nil)).get? "exceptionDetails").isSome

/-- The reply to an evaluation whose script threw: `exceptionDetails`
carries the thrown message text and the `result.result` remote object
describes the error value, with no `value` member and no protocol-level
`error` field. -/
def c1resp : JVal :=
  .obj [("id", .jnum 1),
        ("result", .obj [
          ("result", .obj [("type", .jstr "object"), ("subtype", .jstr "error"),
                           ("description", .jstr "Error: boom")]),
          ("exceptionDetails", .obj [("text", .jstr "Uncaught"),
              ("exception", .obj [("description", .jstr "Error: boom")])])])]

/-- A connected context about to receive the thrown-exception reply. -/
def c1ctx : ChromeContext :=
  { port := 9222, width := 400, height := none, scale := 1,
    chrome_process := some 1, ws := some [c1resp], cmd_id := 0 }

/-- C1 counterexample: the remote execution throws — the reply reports the
thrown exception via `exceptionDetails`, with no protocol-level `error`
field — yet `evaluate` returns normally with value `none` (Python `None`):
it raises nothing and the thrown message text is dropped, refuting the
claim that a thrown exception always surfaces as a raised EvaluationError. -/
theorem evaluate_thrown_returns_none_cex :
    reportsThrown c1resp = true
    ∧ c1resp.get? "error" = none
    ∧ (c1ctx.evaluate "throw new Error(1)" true false).out =
        .ok (none, { c1ctx with cmd_id := 1, ws := some [] }) := by
  refine ⟨by decide, by decide, by decide⟩

/-- C1 amended: `evaluate` never inspects `exceptionDetails`; whenever the
id-matched reply has no protocol-level `error` field and its
`result.result` payload carries no `value` member — as is the case for
every thrown-exception reply — `evaluate` silently returns `None` instead
of raising an error carrying the thrown message.  Only a protocol-level
`error` field makes the call raise (a ProtocolError, via `_send_command`). -/
theorem evaluate_thrown_amended (ctx : ChromeContext) (expression : String)
    (rbv ap : Bool) (pre : List JVal) (m : JVal) (rest : List JVal)
    (hws : ctx.ws = some (pre ++ m :: rest))
    (hpre : ∀ x ∈ pre, x.get? "id" ≠ some (.jnum (ctx.cmd_id + 1)))
    (hm : m.get? "id" = some (.jnum (ctx.cmd_id + 1)))
    (hne : m.get? "error" = none)
    (_hthrown : reportsThrown m = true)
    (hnoval : ((((m.get? "result").getD (.jobj .nil)).getD "result" (.jobj .nil)).get? "value")
        = none) :
    (ctx.evaluate expression rbv ap).out =
      .ok (none, { ctx with cmd_id := ctx.cmd_id + 1, ws := some rest }) := by
  have hr := recvUntilId_append (ctx.cmd_id + 1) pre m rest hpre hm
  simp [ChromeContext.evaluate, ChromeContext._send_command, hws, hr, hne, hnoval,
    M.bind, M.emit, M.pure]

/-- Witness for the amended C1 at the concrete thrown-exception reply. -/
theorem evaluate_thrown_amended_witness :
    (c1ctx.evaluate "throw new Error(1)" true false).out =
      .ok (none, { c1ctx with cmd_id := 1, ws := some [] }) :=
  evaluate_thrown_amended c1ctx "throw new Error(1)" true false [] c1resp []
    rfl (by decide) (by decide) (by decide) (by decide) (by decide)

/-- C6: `stop` is idempotent and safe from any session state: it always
returns normally (whether or not the five-second wait for the process
times out), it leaves the session torn down — connection closed, process
handle released — and calling `stop` again on the result is a no-op that
performs no further effects and returns the same torn-down state. -/
theorem stop_idempotent_total (ctx : ChromeContext) (b1 b2 : Bool) :
    ∃ c1, (ctx.stop b1).out = .ok c1
      ∧ c1.ws = none ∧ c1.chrome_process = none
      ∧ c1.stop b2 = ⟨[], .ok c1⟩ := by
  obtain ⟨port, width, height, scale, proc, ws, cid⟩ := ctx
  cases ws <;> cases proc <;> exact ⟨_, rfl, rfl, rfl, rfl⟩

/-- If no polling attempt ever yields a matching page target and the clock
eventually passes the ten-second deadline, the discovery loop raises the
startup-timeout error instead of polling forever. -/
theorem pollLoop_timeout (start_time : Nat)
    (polls : List (Nat × Option (List ChromeContext.Target)))
    (hno : ∀ p ∈ polls, p.2.bind ChromeContext.findPageTarget = none)
    (hlate : ∃ p ∈ polls, start_time + 10 < p.1) :
    ChromeContext.pollLoop start_time polls = .err .startupTimeout := by
  induction polls with
  | nil => simp at hlate
  | cons q rest ih =>
    obtain ⟨now, attempt⟩ := q
    have h0 := hno (now, attempt) (by simp)
    simp only at h0
    simp only [ChromeContext.pollLoop]
    rw [h0]
    simp only []
    by_cases ht : start_time + 10 < now
    · simp [ht]
    · rw [if_neg ht]
      apply ih
      · intro p hp; exact hno p (by simp [hp])
      · rcases hlate with ⟨p, hp, hlt⟩
        rcases List.mem_cons.mp hp with heq | hmem
        · exfalso; apply ht; rw [heq] at hlt; exact hlt
        · exact ⟨p, hmem, hlt⟩

/-- C7: when `start` must spawn a browser and the discovery endpoint never
yields a matching page target while the clock passes the ten-second
deadline, the polling phase terminates with the startup-timeout error
(`RuntimeError("Chrome did not start in time")`) — the call's only effect
is the spawn, and no connection is ever opened. -/
theorem start_discovery_timeout (ctx : ChromeContext) (path : String)
    (start_time : Nat) (polls : List (Nat × Option (List ChromeContext.Target)))
    (proc : Nat) (wsInit : List JVal)
    (hnot : ctx.chrome_process = none)
    (hno : ∀ p ∈ polls, p.2.bind ChromeContext.findPageTarget = none)
    (hlate : ∃ p ∈ polls, start_time + 10 < p.1) :
    (ctx.start (some path) start_time polls proc wsInit).out = .err .startupTimeout
    ∧ (ctx.start (some path) start_time polls proc wsInit).trace = [.spawnChrome path] := by
  have hpoll := pollLoop_timeout start_time polls hno hlate
  constructor <;>
    simp [ChromeContext.start, hnot, hpoll, M.bind, M.emit, M.fail]

/-- A never-started context used for the C7 witness. -/
def c7ctx : ChromeContext :=
  { port := 9222, width := 400, height := none, scale := 1,
    chrome_process := none, ws := none, cmd_id := 0 }

/-- Witness for C7: two polls, the first at second five (endpoint raised),
the second at second twenty with an empty target list. -/
theorem start_discovery_timeout_witness :
    (c7ctx.start (some "/usr/bin/google-chrome") 0 [(5, none), (20, some [])] 7 []).out
        = .err .startupTimeout
    ∧ (c7ctx.start (some "/usr/bin/google-chrome") 0 [(5, none), (20, some [])] 7 []).trace
        = [.spawnChrome "/usr/bin/google-chrome"] :=
  start_discovery_timeout c7ctx "/usr/bin/google-chrome" 0 [(5, none), (20, some [])] 7 []
    rfl (by decide) (by decide)

/-- A trace consisting only of wire writes of command messages: no process
spawn, no new connection, no server or filesystem effect. -/
def AllSends (tr : List Effect) : Prop :=
  ∀ fx ∈ tr, ∃ msg, fx = Effect.sendMsg msg

theorem allSends_nil : AllSends [] := by
  intro fx hfx; cases hfx

theorem allSends_append {t1 t2 : List Effect} (h1 : AllSends t1) (h2 : AllSends t2) :
    AllSends (t1 ++ t2) := by
  intro fx hfx
  rcases List.mem_append.mp hfx with h | h
  · exact h1 fx h
  · exact h2 fx h

theorem allSends_bind {α β : Type} (x : M α) (f : α → M β) (hx : AllSends x.trace)
    (hf : ∀ a, AllSends (f a).trace) : AllSends (M.bind x f).trace := by
  obtain ⟨tr, o⟩ := x
  cases o with
  | ok a => exact allSends_append hx (hf a)
  | err e => exact hx
  | blocked => exact hx

theorem send_command_allSends (ctx : ChromeContext) (method : String) (params : JVal) :
    AllSends (ctx._send_command method params).trace := by
  cases hw : ctx.ws with
  | none =>
    simp only [ChromeContext._send_command, hw, M.fail]
    exact allSends_nil
  | some pending =>
    simp only [ChromeContext._send_command, hw]
    apply allSends_bind
    · intro fx hfx
      simp only [M.emit] at hfx
      rcases List.mem_singleton.mp hfx with rfl
      exact ⟨_, rfl⟩
    · intro a
      cases hr : ChromeContext.recvUntilId (ctx.cmd_id + 1) pending with
      | blocked => exact allSends_nil
      | err e => exact allSends_nil
      | ok p =>
        obtain ⟨m, rest⟩ := p
        cases he : m.get? "error" <;> simp [hr, he, M.stuck, M.fail, M.pure] <;>
          exact allSends_nil

theorem set_size_allSends (ctx : ChromeContext) (w h s : Option Nat) :
    AllSends (ctx.set_size w h s).trace := by
  simp only [ChromeContext.set_size]
  apply allSends_bind _ _ (send_command_allSends _ _ _)
  intro r1
  cases hwid : r1.1.get? "windowId"
  · simp only [hwid]
    exact allSends_nil
  · simp only [hwid]
    apply allSends_bind _ _ (send_command_allSends _ _ _)
    intro r2
    apply allSends_bind _ _ (send_command_allSends _ _ _)
    intro r3
    exact allSends_nil

theorem send_command_ok_process (ctx : ChromeContext) (method : String)
    (params : JVal) (v : JVal) (c : ChromeContext)
    (h : (ctx._send_command method params).out = .ok (v, c)) :
    c.chrome_process = ctx.chrome_process := by
  cases hw : ctx.ws with
  | none => simp [ChromeContext._send_command, hw, M.fail] at h
  | some pending =>
    simp only [ChromeContext._send_command, hw] at h
    cases hr : ChromeContext.recvUntilId (ctx.cmd_id + 1) pending with
    | blocked => simp [hr, M.bind, M.emit, M.stuck] at h
    | err e => simp [hr, M.bind, M.emit, M.fail] at h
    | ok p =>
      obtain ⟨m, rest⟩ := p
      cases he : m.get? "error" with
      | none =>
        simp [hr, he, M.bind, M.emit, M.pure] at h
        rw [← h.2]
      | some e => simp [hr, he, M.bind, M.emit, M.fail] at h

theorem set_size_ok_process (ctx : ChromeContext) (w hh s : Option Nat)
    (c : ChromeContext) (hok : (ctx.set_size w hh s).out = .ok c) :
    c.chrome_process = ctx.chrome_process := by
  simp only [ChromeContext.set_size] at hok
  rcases (M.bind_out_ok_iff _ _ _).mp hok with ⟨r1, h1, hrest⟩
  obtain ⟨v1, c1⟩ := r1
  cases hwid : v1.get? "windowId" with
  | none => rw [hwid] at hrest; simp [M.fail] at hrest
  | some wid =>
    rw [hwid] at hrest
    simp only [] at hrest
    rcases (M.bind_out_ok_iff _ _ _).mp hrest with ⟨r2, h2, hrest2⟩
    obtain ⟨v2, c2⟩ := r2
    rcases (M.bind_out_ok_iff _ _ _).mp hrest2 with ⟨r3, h3, hrest3⟩
    obtain ⟨v3, c3⟩ := r3
    have h33 : c3 = c := by simpa [M.pure] using hrest3
    have e3 := send_command_ok_process _ _ _ _ _ h3
    have e2 := send_command_ok_process _ _ _ _ _ h2
    have e1 := send_command_ok_process _ _ _ _ _ h1
    rw [← h33, e3, e2, e1]

/-- C10: calling `start` on an already-started context (one owning a
process handle) only re-applies the current viewport size: the call is
exactly `set_size`, its trace holds nothing but command writes — no second
process spawn, no second connection — and any normal return still owns the
same process handle. -/
theorem start_already_started_no_respawn (ctx : ChromeContext) (p : Nat)
    (path : Option String) (start_time : Nat)
    (polls : List (Nat × Option (List ChromeContext.Target)))
    (proc : Nat) (wsInit : List JVal)
    (h : ctx.chrome_process = some p) :
    ctx.start path start_time polls proc wsInit = ctx.set_size none none none
    ∧ AllSends (ctx.start path start_time polls proc wsInit).trace
    ∧ ∀ c, (ctx.start path start_time polls proc wsInit).out = .ok c →
        c.chrome_process = some p := by
  have heq : ctx.start path start_time polls proc wsInit = ctx.set_size none none none := by
    simp [ChromeContext.start, h]
  refine ⟨heq, ?_, ?_⟩
  · rw [heq]; exact set_size_allSends ctx none none none
  · intro c hc
    rw [heq] at hc
    rw [set_size_ok_process ctx none none none c hc]
    exact h

/-- Window-bounds reply for the C10 witness. -/
def c10resp1 : JVal := .obj [("id", .jnum 1), ("result", .obj [("windowId", .jnum 42)])]

/-- Acknowledgment reply for the C10 witness. -/
def c10resp2 : JVal := .obj [("id", .jnum 2), ("result", .obj [])]

/-- Acknowledgment reply for the C10 witness. -/
def c10resp3 : JVal := .obj [("id", .jnum 3), ("result", .obj [])]

/-- An already-started context (process handle 1, connected) whose stream
holds the three replies `set_size` consumes. -/
def c10ctx : ChromeContext :=
  { port := 9222, width := 400, height := some 300, scale := 1,
    chrome_process := some 1, ws := some [c10resp1, c10resp2, c10resp3], cmd_id := 0 }

/-- Witness for C10 at the concrete already-started context. -/
theorem start_already_started_no_respawn_witness :
    c10ctx.start none 0 [] 9 [] = c10ctx.set_size none none none
    ∧ AllSends (c10ctx.start none 0 [] 9 []).trace
    ∧ ∀ c, (c10ctx.start none 0 [] 9 []).out = .ok c → c.chrome_process = some 1 :=
  start_already_started_no_respawn c10ctx 1 none 0 [] 9 [] rfl

/-- C3 counterexample: two deviations from the claim at concrete inputs.
With two state updates and one explicit filename, the call does raise the
count-mismatch `ValueError` and interacts with no browser — but only after
creating the output directory on disk (`output_dir.mkdir` runs before the
check), so "without any partial side effects" is false.  And with an
explicit but empty filename list (Python-falsy), the check is skipped
entirely: no error is raised, filenames are auto-generated, and browser
interaction proceeds. -/
theorem save_image_sequence_side_effect_cex :
    StudioContext.save_image_sequence c2upd c2cap 0 [JVal.null, JVal.null] "out"
        (some ["a.png"]) "screenshot"
      = ⟨[.mkdirOutput "out"], .err (.validationError (StudioContext.mismatchMsg 1 2))⟩
    ∧ (StudioContext.save_image_sequence c2upd c2cap 0 [JVal.null, JVal.null] "out"
        (some ["a.png"]) "screenshot").trace ≠ []
    ∧ (StudioContext.save_image_sequence c2upd c2cap 0 [JVal.null] "out"
        (some []) "screenshot").out = .ok (["out/screenshot_0.png"], 1)
    ∧ Effect.updateState 0 ∈ (StudioContext.save_image_sequence c2upd c2cap 0 [JVal.null]
        "out" (some []) "screenshot").trace := by
  refine ⟨by decide, by decide, by decide, by decide⟩

/-- C3 amended: when an explicit, nonempty filename list is supplied whose
length differs from the number of state updates, `save_image_sequence`
raises the count-mismatch `ValueError` before any browser interaction and
before any image write; the only side effect performed first is the
creation of the output directory.  (An explicit empty list is treated as
absent, Python truthiness.) -/
theorem save_image_sequence_mismatch_amended {E : Type}
    (upd : E → StateUpdate → Except Err E) (cap : E → Except Err (Bytes × E))
    (e : E) (us : List StateUpdate) (dir : String) (names : List String)
    (base : String) (hne : names ≠ []) (hmis : names.length ≠ us.length) :
    StudioContext.save_image_sequence upd cap e us dir (some names) base
      = ⟨[.mkdirOutput dir],
         .err (.validationError (StudioContext.mismatchMsg names.length us.length))⟩ := by
  cases names with
  | nil => exact absurd rfl hne
  | cons n ns =>
    simp only [StudioContext.save_image_sequence]
    rw [if_neg hmis]
    rfl

/-- Witness for the amended C3 at a concrete mismatched call. -/
theorem save_image_sequence_mismatch_amended_witness :
    StudioContext.save_image_sequence c2upd c2cap 0 [JVal.null, JVal.null] "shots"
        (some ["a.png"]) "screenshot"
      = ⟨[.mkdirOutput "shots"],
         .err (.validationError (StudioContext.mismatchMsg 1 2))⟩ :=
  save_image_sequence_mismatch_amended c2upd c2cap 0 [JVal.null, JVal.null] "shots"
    ["a.png"] "screenshot" (by decide) (by decide)

/-- One-step unfolding of the video frame loop's outcome. -/
theorem video_loop_cons_out {E : Type} (upd : E → StateUpdate → Except Err E)
    (cap : E → Except Err (Bytes × E)) (wr : Nat → Bytes → Except Err Unit)
    (i : Nat) (e : E) (u : StateUpdate) (rest : List StateUpdate) :
    (StudioContext.video_loop upd cap wr i e (u :: rest)).out =
      (match upd e u with
       | .error er => Out.err er
       | .ok e1 =>
         match cap e1 with
         | .error er => Out.err er
         | .ok (b, e2) =>
           match wr i b with
           | .error er => Out.err er
           | .ok _ => (StudioContext.video_loop upd cap wr (i + 1) e2 rest).out) := by
  cases hu : upd e u with
  | error er =>
    simp [StudioContext.video_loop, M.bind, M.emit, M.fail, hu]
  | ok e1 =>
    cases hc : cap e1 with
    | error er =>
      simp [StudioContext.video_loop, M.bind, M.emit, M.fail, hu, hc]
    | ok p =>
      obtain ⟨b, e2⟩ := p
      cases hwr : wr i b with
      | error er =>
        simp [StudioContext.video_loop, M.bind, M.emit, M.fail, hu, hc, hwr]
      | ok _ =>
        simp [StudioContext.video_loop, M.bind, M.emit, M.pure, hu, hc, hwr]

/-- The frame loop always terminates in a return or a raise. -/
theorem video_loop_not_blocked {E : Type} (upd : E → StateUpdate → Except Err E)
    (cap : E → Except Err (Bytes × E)) (wr : Nat → Bytes → Except Err Unit) :
    ∀ (us : List StateUpdate) (i : Nat) (e : E),
      (StudioContext.video_loop upd cap wr i e us).out ≠ .blocked := by
  intro us
  induction us with
  | nil => intro i e h; cases h
  | cons u rest ih =>
    intro i e h
    rw [video_loop_cons_out] at h
    cases hu : upd e u with
    | error er => rw [hu] at h; simp only [] at h; cases h
    | ok e1 =>
      rw [hu] at h
      simp only [] at h
      cases hc : cap e1 with
      | error er => rw [hc] at h; simp only [] at h; cases h
      | ok p =>
        obtain ⟨b, e2⟩ := p
        rw [hc] at h
        simp only [] at h
        cases hwr : wr i b with
        | error er => rw [hwr] at h; simp only [] at h; cases h
        | ok _ =>
          rw [hwr] at h
          simp only [] at h
          exact ih (i + 1) e2 h

theorem M.bind_out_blocked {α β : Type} (x : M α) (f : α → M β)
    (h : (M.bind x f).out = .blocked) :
    x.out = .blocked ∨ ∃ a, x.out = .ok a ∧ (f a).out = .blocked := by
  obtain ⟨tr, o⟩ := x
  cases o with
  | ok a => exact Or.inr ⟨a, rfl, h⟩
  | err e => cases h
  | blocked => exact Or.inl rfl

/-- C9: every run of `capture_video` closes the encoder's stdin pipe — the
close appears in the trace unconditionally.  On a normal return the trace
ends with closing the pipe and then waiting for the encoder to exit; on a
raised error from the update/capture/write loop the trace ends with
closing the pipe and then terminating the encoder, and the error still
propagates.  No exit path leaves the pipe open. -/
theorem capture_video_pipe_cleanup {E : Type} (upd : E → StateUpdate → Except Err E)
    (cap : E → Except Err (Bytes × E)) (wr : Nat → Bytes → Except Err Unit)
    (e : E) (us : List StateUpdate) (filename : String) :
    Effect.closeEncoderStdin ∈ (StudioContext.capture_video upd cap wr e us filename).trace
    ∧ (∀ a, (StudioContext.capture_video upd cap wr e us filename).out = .ok a →
        ∃ pre, (StudioContext.capture_video upd cap wr e us filename).trace
          = pre ++ [Effect.closeEncoderStdin, Effect.waitEncoder])
    ∧ (∀ er, (StudioContext.capture_video upd cap wr e us filename).out = .err er →
        ∃ pre, (StudioContext.capture_video upd cap wr e us filename).trace
          = pre ++ [Effect.closeEncoderStdin, Effect.terminateEncoder]) := by
  have hbody : ∀ (a : String × E),
      (M.bind (StudioContext.video_loop upd cap wr 0 e us)
        (fun e2 => M.pure (filename, e2))).out ≠ .blocked := by
    intro _ h
    rcases M.bind_out_blocked _ _ h with hb | ⟨a, _, hp⟩
    · exact video_loop_not_blocked upd cap wr us 0 e hb
    · cases hp
  have hr : StudioContext.capture_video upd cap wr e us filename =
      ⟨Effect.mkdirParent filename ::
        Effect.spawnEncoder (filename.toLower.endsWith ".gif") ::
        (M.tryCleanup
          (M.bind (StudioContext.video_loop upd cap wr 0 e us)
            (fun e2 => M.pure (filename, e2)))
          [.closeEncoderStdin, .waitEncoder]
          [.closeEncoderStdin, .terminateEncoder]).trace,
       (M.tryCleanup
          (M.bind (StudioContext.video_loop upd cap wr 0 e us)
            (fun e2 => M.pure (filename, e2)))
          [.closeEncoderStdin, .waitEncoder]
          [.closeEncoderStdin, .terminateEncoder]).out⟩ := rfl
  rcases hb : (M.bind (StudioContext.video_loop upd cap wr 0 e us)
      (fun e2 => M.pure (filename, e2))).out with a | er | _
  · refine ⟨?_, ?_, ?_⟩
    · rw [hr]
      simp [M.tryCleanup, hb]
    · intro a' _
      refine ⟨Effect.mkdirParent filename ::
        Effect.spawnEncoder (filename.toLower.endsWith ".gif") ::
        (M.bind (StudioContext.video_loop upd cap wr 0 e us)
          (fun e2 => M.pure (filename, e2))).trace, ?_⟩
      rw [hr]
      simp [M.tryCleanup, hb]
    · intro er her
      rw [hr] at her
      simp only [M.tryCleanup, hb] at her
      cases her
  · refine ⟨?_, ?_, ?_⟩
    · rw [hr]
      simp [M.tryCleanup, hb]
    · intro a' ha
      rw [hr] at ha
      simp only [M.tryCleanup, hb] at ha
      cases ha
    · intro er _
      refine ⟨Effect.mkdirParent filename ::
        Effect.spawnEncoder (filename.toLower.endsWith ".gif") ::
        (M.bind (StudioContext.video_loop upd cap wr 0 e us)
          (fun e2 => M.pure (filename, e2))).trace, ?_⟩
      rw [hr]
      simp [M.tryCleanup, hb]
  · exact absurd hb (hbody (filename, e))

/-- An always-succeeding encoder pipe write for the C9 witness. -/
def c9wr : Nat → Bytes → Except Err Unit := fun _ _ => .ok ()

/-- Witness for C9 at a concrete one-frame successful run. -/
theorem capture_video_pipe_cleanup_witness :
    ∃ pre, (StudioContext.capture_video c2upd c2cap c9wr 0 [JVal.null] "out/video.mp4").trace
      = pre ++ [Effect.closeEncoderStdin, Effect.waitEncoder] :=
  (capture_video_pipe_cleanup c2upd c2cap c9wr 0 [JVal.null] "out/video.mp4").2.1
    ("out/video.mp4", 1) (by decide)

theorem M.bind_emit_out {β : Type} (x : Effect) (g : Unit → M β) :
    (M.bind (M.emit x) g).out = (g ()).out := rfl

theorem M.bind_emit_trace {β : Type} (x : Effect) (g : Unit → M β) :
    (M.bind (M.emit x) g).trace = x :: (g ()).trace := rfl

theorem M.withExit_out {α : Type} (body : M α) (fx : List Effect) :
    (M.withExit body fx).out = body.out := by
  rcases body with ⟨tr, o⟩
  cases o <;> rfl

theorem M.withExit_trace_of_ok {α : Type} (body : M α) (fx : List Effect) (a : α)
    (h : body.out = .ok a) : (M.withExit body fx).trace = body.trace ++ fx := by
  rcases body with ⟨tr, o⟩
  cases o with
  | ok a' => rfl
  | err e => cases h
  | blocked => cases h

theorem wait_for_load_trace (c : ChromeContext) : c.wait_for_load.trace = [] := by
  rcases hws : c.ws with _ | pending
  · simp only [ChromeContext.wait_for_load, hws]
    rfl
  · simp only [ChromeContext.wait_for_load, hws]
    rcases ChromeContext.waitForLoadEvent pending with _ | _ | _ <;> rfl

theorem send_command_ok_trace (ctx : ChromeContext) (method : String) (params : JVal)
    (x : JVal × ChromeContext) (h : (ctx._send_command method params).out = .ok x) :
    ∃ msg, (ctx._send_command method params).trace = [.sendMsg msg] := by
  cases hw : ctx.ws with
  | none => simp [ChromeContext._send_command, hw, M.fail] at h
  | some pending =>
    refine ⟨.obj [("id", .jnum (ctx.cmd_id + 1)), ("method", .jstr method),
                  ("params", params)], ?_⟩
    simp only [ChromeContext._send_command, hw]
    cases hr : ChromeContext.recvUntilId (ctx.cmd_id + 1) pending with
    | blocked => simp [hr, M.bind, M.emit, M.stuck]
    | err e => simp [hr, M.bind, M.emit, M.fail]
    | ok p =>
      obtain ⟨m, rest⟩ := p
      cases he : m.get? "error" <;> simp [hr, he, M.bind, M.emit, M.fail, M.pure]

theorem writeAuxFiles_allAux (d : Nat) (fs : List (String × String)) :
    ∀ fx ∈ (ChromeContext.writeAuxFiles d fs).trace,
      ∃ name, fx = Effect.writeAuxFile d name := by
  induction fs with
  | nil => intro fx hfx; cases hfx
  | cons kv rest ih =>
    obtain ⟨name, content⟩ := kv
    intro fx hfx
    rw [ChromeContext.writeAuxFiles, M.bind_emit_trace] at hfx
    rcases List.mem_cons.mp hfx with rfl | h
    · exact ⟨name, rfl⟩
    · exact ih fx h

theorem filter_eq_nil_of_false (tr : List Effect) (p : Effect → Bool)
    (h : ∀ fx ∈ tr, p fx = false) : tr.filter p = [] := by
  induction tr with
  | nil => rfl
  | cons a l ih =>
    simp [List.filter, h a (by simp), ih (fun fx hfx => h fx (by simp [hfx]))]

/-- Effects creating a Content Server instance. -/
def isCreateServer : Effect → Bool
  | .createServer _ _ => true
  | _ => false

/-- Effects creating a temporary served-document directory. -/
def isCreateTempDir : Effect → Bool
  | .createTempDir _ => true
  | _ => false

/-- C8: a completed `set_content` call created exactly one Content Server
instance — the fresh one scoped to this call (`createServer srv d` is the
only creation effect in the trace, so no instance is reused across loads)
and exactly one temporary directory; and before the call returns, its
trace ends by shutting the server down, fully joining its background
thread, closing the server, and removing the temporary directory. -/
theorem set_content_scoped_server (ctx : ChromeContext) (html : String)
    (files : List (String × String)) (d srv : Nat) (ctx' : ChromeContext)
    (hok : (ctx.set_content html files d srv).out = .ok ctx') :
    (∃ pre, (ctx.set_content html files d srv).trace
        = pre ++ [.shutdownServer srv, .joinServerThread srv,
                  .closeServer srv, .removeTempDir d])
    ∧ (ctx.set_content html files d srv).trace.filter isCreateServer
        = [.createServer srv d]
    ∧ (ctx.set_content html files d srv).trace.filter isCreateTempDir
        = [.createTempDir d] := by
  simp only [ChromeContext.set_content] at hok ⊢
  rcases (M.bind_out_ok_iff _ _ _).mp hok with ⟨ctx1, hS, h1⟩
  rw [M.bind_trace_of_ok _ _ _ hS]
  rw [M.bind_emit_out, M.withExit_out] at h1
  rw [M.bind_emit_trace, M.withExit_trace_of_ok _ _ _ h1]
  rw [M.bind_emit_out] at h1
  rcases (M.bind_out_ok_iff _ _ _).mp h1 with ⟨u, haux, h2⟩
  rw [M.bind_emit_trace, M.bind_trace_of_ok _ _ _ haux]
  rw [M.bind_emit_out, M.withExit_out] at h2
  rw [M.bind_emit_trace, M.withExit_trace_of_ok _ _ _ h2]
  rw [M.bind_emit_out] at h2
  rcases (M.bind_out_ok_iff _ _ _).mp h2 with ⟨r, hN, h3⟩
  rw [M.bind_emit_trace, M.bind_trace_of_ok _ _ _ hN]
  rcases (M.bind_out_ok_iff _ _ _).mp h3 with ⟨ctx2, hwait, h4⟩
  rw [M.bind_trace_of_ok _ _ _ hwait, wait_for_load_trace]
  rw [M.bind_emit_trace, M.bind_emit_trace]
  rcases send_command_ok_trace _ _ _ _ hN with ⟨msg, hNtr⟩
  rw [hNtr]
  have hf1 : (ctx.set_size none none none).trace.filter isCreateServer = [] :=
    filter_eq_nil_of_false _ _ (fun fx hfx => by
      rcases set_size_allSends ctx none none none fx hfx with ⟨m, rfl⟩; rfl)
  have hf2 : (ChromeContext.writeAuxFiles d files).trace.filter isCreateServer = [] :=
    filter_eq_nil_of_false _ _ (fun fx hfx => by
      rcases writeAuxFiles_allAux d files fx hfx with ⟨name, rfl⟩; rfl)
  have hf3 : (ctx.set_size none none none).trace.filter isCreateTempDir = [] :=
    filter_eq_nil_of_false _ _ (fun fx hfx => by
      rcases set_size_allSends ctx none none none fx hfx with ⟨m, rfl⟩; rfl)
  have hf4 : (ChromeContext.writeAuxFiles d files).trace.filter isCreateTempDir = [] :=
    filter_eq_nil_of_false _ _ (fun fx hfx => by
      rcases writeAuxFiles_allAux d files fx hfx with ⟨name, rfl⟩; rfl)
  refine ⟨⟨(ctx.set_size none none none).trace
      ++ [.createTempDir d, .writeIndexHtml d html]
      ++ (ChromeContext.writeAuxFiles d files).trace
      ++ [.createServer srv d, .startServerThread srv, .sendMsg msg], ?_⟩, ?_, ?_⟩
  · simp [List.append_assoc, M.pure]
  · simp [List.filter_append, List.filter, hf1, hf2, isCreateServer, M.pure]
  · simp [List.filter_append, List.filter, hf3, hf4, isCreateTempDir, M.pure]

/-- A connected context whose stream holds the three `set_size` replies,
the navigate acknowledgment, and the load event, in order. -/
def c8ctx : ChromeContext :=
  { port := 9222, width := 400, height := some 300, scale := 1,
    chrome_process := some 1,
    ws := some
      [.obj [("id", .jnum 1), ("result", .obj [("windowId", .jnum 42)])],
       .obj [("id", .jnum 2), ("result", .obj [])],
       .obj [("id", .jnum 3), ("result", .obj [])],
       .obj [("id", .jnum 4), ("result", .obj [("frameId", .jstr "F")])],
       .obj [("method", .jstr "Page.loadEventFired"), ("params", .obj [])]],
    cmd_id := 0 }

/-- Witness for C8 at a concrete completed load. -/
theorem set_content_scoped_server_witness :
    (∃ pre, (c8ctx.set_content "<html></html>" [] 3 5).trace
        = pre ++ [.shutdownServer 5, .joinServerThread 5,
                  .closeServer 5, .removeTempDir 3])
    ∧ (c8ctx.set_content "<html></html>" [] 3 5).trace.filter isCreateServer
        = [.createServer 5 3]
    ∧ (c8ctx.set_content "<html></html>" [] 3 5).trace.filter isCreateTempDir
        = [.createTempDir 3] :=
  set_content_scoped_server c8ctx "<html></html>" [] 3 5
    { c8ctx with cmd_id := 4, ws := some [] } (by decide)

end GenStudio
